import Mathlib

/-!
# Verification of the idea-architect-ai client logic

Shallow embedding of the analysis-request orchestration, the REST project
fetcher, the stored-token auth check, and the PDF report renderer of the
repository, together with theorems settling the frozen claims about them.

Two string representations are used:
* `String` for the orchestration part, where strings are opaque messages;
* `Str := List Char` for the PDF/text-layout part, where the code performs
  character-level surgery (split/trim/prefix tests), mirroring the fact that
  a JavaScript string is a sequence of characters.

Environment effects (the HTTP stack, `jsPDF`'s width metric, the locale date
formatter) are passed in as explicit parameters; each network interaction is
represented by an outcome value describing what the environment returned.
-/

/-! ## Part 1: analyze-request orchestration (src/unnamed/part_000 and src/src/lib/api.ts) -/

/-- The seven-section analysis payload (`AnalysisResult` in `@/types/project`). -/
structure AnalysisResult where
  marketAnalysis : String
  costPrediction : String
  businessStrategy : String
  monetization : String
  legalConsiderations : String
  techStack : String
  strategistCritique : String
deriving DecidableEq, Repr

/-- A parsed JSON response body for an analyze request: the `success` flag
(JS truthiness: an absent flag or a null body reads as `false`), the optional
`error` message field (absent also when `response.json()` failed and the code
substituted `{}`), and the `analysis` payload (meaningful when `success`). -/
structure AnalyzeBody where
  success : Bool
  error : Option String
  analysis : AnalysisResult
deriving DecidableEq, Repr

/-- What the environment produced for one `fetch` of the analyze endpoint:
either the promise rejected (network error / abort-timeout), carrying the
message later read off the caught exception, or an HTTP response with a
status code and a parsed body. -/
inductive AnalyzeOutcome where
  | transportError (msg : String)
  | response (status : Nat) (body : AnalyzeBody)
deriving DecidableEq, Repr

/-- `response.ok` of the Fetch API: status in the range [200, 300). -/
def httpOk (status : Nat) : Prop := 200 ≤ status ∧ status < 300

instance (status : Nat) : Decidable (httpOk status) := by
  unfold httpOk; infer_instance

/-- Handling of an OK analyze response, common to both variants of
`analyzeStartup` (src/unnamed/part_000 lines 174-177, src/src/lib/api.ts
lines 123-127):
`if (!data?.success) throw new Error(data?.error || 'Analysis failed');
 return data.analysis;`. -/
def handleOkResponse (body : AnalyzeBody) : Except String AnalysisResult :=
  if body.success then .ok body.analysis
  else .error (body.error.getD "Analysis failed")

/-- One analyze attempt of the retry variant (src/unnamed/part_000 lines
148-177, body of the `try`): the value the `try` block produces, `.error m`
meaning an exception carrying message `m` escaped (a transport error, the
explicit non-OK `throw`, or the `success`-flag `throw`). The attempt-1
`continue` on a 5xx status is handled by the caller; only the message of a
final attempt is ever surfaced, so the message computed here for a non-final
attempt is never used. -/
def attemptStep (o : AnalyzeOutcome) : Except String AnalysisResult :=
  match o with
  | .transportError msg => .error msg
  | .response status body =>
    if httpOk status then handleOkResponse body
    else .error (body.error.getD
      s!"Analysis failed ({status}). If the backend was sleeping, wait ~30s and try again.")

/-- The message an attempt's failure carries (`""` when the attempt succeeded). -/
def attemptErrMsg (o : AnalyzeOutcome) : String :=
  match attemptStep o with
  | .error m => m
  | .ok _ => ""

/-- An attempt that fails: a transport-level error, a non-2xx HTTP status, or
an OK status whose body carries a falsy `success` flag. -/
def attemptFailure (o : AnalyzeOutcome) : Prop :=
  (∃ m, o = .transportError m) ∨
  (∃ s b, o = .response s b ∧ ¬ httpOk s) ∨
  (∃ s b, o = .response s b ∧ httpOk s ∧ b.success = false)

deriving instance DecidableEq for Except

/-- Observable trace of one call of the retry variant of `analyzeStartup`:
how many analyze requests were issued, the backoff sleeps (in ms) taken
between them, and the call's final outcome. -/
structure RunTrace where
  requests : Nat
  sleeps : List Nat
  result : Except String AnalysisResult
deriving DecidableEq, Repr

/-- The retry variant of `analyzeStartup` (src/unnamed/part_000 lines
108-193). `healthOk` is the outcome of the pre-wake `GET /health` probe
(lines 140-144), which the code ignores (`catch {}`); `o1`, `o2` are the
environment's outcomes for the first and (if issued) second analyze request.

Control flow of the source loop `for (attempt = 1; attempt <= 2; ...)`:
on attempt 1 every failure — the explicit 5xx `continue`, the non-OK
`throw` (caught by the surrounding `catch`, `attempt === 1` branch), the
`success`-flag `throw`, or a transport error — sleeps 8000 ms exactly once
and retries; on attempt 2 the caught failure is rethrown with its message.
The `throw` after the loop is unreachable. -/
def analyzeStartupRetry (healthOk : Bool) (o1 o2 : AnalyzeOutcome) : RunTrace :=
  -- healthOk is deliberately unused: the probe's outcome is discarded.
  let _ := healthOk
  match attemptStep o1 with
  | .ok a => ⟨1, [], .ok a⟩
  | .error _ =>
    match attemptStep o2 with
    | .ok a => ⟨2, [8000], .ok a⟩
    | .error m => ⟨2, [8000], .error m⟩

/-- What the `try` block of the Django branch of the failover variant
produces (src/src/lib/api.ts lines 120-135): `some a` when Django answered
2xx with a truthy `success` flag; `none` when anything failed (the transport
error, the non-OK fall-through, or the `success`-flag `throw`, all of which
end in the fallback path — the non-OK body and the thrown message are only
logged, never surfaced). -/
def djangoAttempt (o : AnalyzeOutcome) : Option AnalysisResult :=
  match o with
  | .transportError _ => none
  | .response status body =>
    if httpOk status then
      match handleOkResponse body with
      | .ok a => some a
      | .error _ => none
    else none

/-- The environment's outcome for `supabase.functions.invoke('analyze-startup')`:
either the invocation reported an error, or it returned a parsed data body. -/
inductive InvokeOutcome where
  | invokeError
  | invokeData (body : AnalyzeBody)
deriving DecidableEq, Repr

/-- Handling of the fallback provider's outcome (src/src/lib/api.ts lines
138-151): an invoke error becomes the fixed unavailability message; a data
body goes through the same `success`-flag check as an OK HTTP response. -/
def fallbackResult (fb : InvokeOutcome) : Except String AnalysisResult :=
  match fb with
  | .invokeError => .error "Analysis failed (backend temporarily unavailable)"
  | .invokeData body => handleOkResponse body

/-- Observable behaviour of one call of the failover variant: whether the
second provider (the built-in backend function) was invoked, and the call's
final outcome. -/
structure FailoverRun where
  usedFallback : Bool
  result : Except String AnalysisResult
deriving DecidableEq, Repr

/-- The failover variant of `analyzeStartup` (src/src/lib/api.ts lines
87-152): try the Django provider; on any failure fall back unconditionally
to the built-in backend function. -/
def analyzeStartupFailover (dj : AnalyzeOutcome) (fb : InvokeOutcome) : FailoverRun :=
  match djangoAttempt dj with
  | some a => ⟨false, .ok a⟩
  | none => ⟨true, fallbackResult fb⟩

/-- The request body `{startupIdea, targetMarket, projectId}` sent to the
analyze endpoint (built once per call in both variants). -/
structure AnalyzeRequest where
  startupIdea : String
  targetMarket : Option String
  projectId : String
deriving DecidableEq, Repr

/-- Modelled from the spec: the client-side submission handler that triggers
an analysis is not among the source files (only `analyzeStartup`, its callee,
is); per the spec ("For all inputs with empty idea text, the client must not
issue the analyze call"; "validation errors are caught and shown inline
before any network call") it refuses an empty idea before any network call,
and otherwise lets `analyzeStartupRetry` issue its requests, each carrying
the one payload built from the inputs. Returns the list of analyze requests
the client puts on the wire. -/
def submitIdea (startupIdea : String) (targetMarket : Option String) (projectId : String)
    (healthOk : Bool) (o1 o2 : AnalyzeOutcome) : List AnalyzeRequest :=
  if startupIdea = "" then []
  else
    List.replicate (analyzeStartupRetry healthOk o1 o2).requests
      ⟨startupIdea, targetMarket, projectId⟩

/-- The REST variant of `getProject` (src/unnamed/part_000 lines 26-41),
generic over the shape the success body parses to. `status` is the HTTP
status, `errField` the optional `error` field of a non-OK body (absent also
when parsing failed), `proj` the project a successfully parsed OK body
denotes. Returns `.ok none` for the 404 early return, `.error` for the
thrown failure, `.ok (some proj)` for the OK path. -/
def getProject (status : Nat) (errField : Option String) (proj : α) :
    Except String (Option α) :=
  if status = 404 then .ok none
  else if ¬ httpOk status then .error (errField.getD "Failed to fetch project")
  else .ok (some proj)

/-- The user payload of `/auth/me` is opaque to the check. -/
structure AuthUser where
  payload : String
deriving DecidableEq, Repr

/-- The environment's outcome for the `/auth/me` fetch in `checkAuth`:
the request threw, or a response arrived with `response.ok` status `ok`
whose body carries `user`. -/
inductive AuthCheckOutcome where
  | fetchError
  | response (ok : Bool) (user : AuthUser)
deriving DecidableEq, Repr

/-- The auth state `checkAuth` leaves behind: the stored token (in
`localStorage`), the `user` state, and the `loading` flag. -/
structure AuthState where
  storedToken : Option String
  user : Option AuthUser
  loading : Bool
deriving DecidableEq, Repr

/-- The mount-time stored-token check of `AuthProvider`
(src/src/hooks/useAuth.tsx lines 21-53). `token` is what
`localStorage.getItem('access_token')` returned. With no token, it only
clears `loading`. With a token: an OK response sets the user; a non-OK
response removes the token; a thrown fetch is caught and the token removed;
the `finally` clears `loading` on every path, and no path rethrows. -/
def checkAuth (token : Option String) (o : AuthCheckOutcome) : AuthState :=
  match token with
  | none => ⟨none, none, false⟩
  | some t =>
    match o with
    | .response true u => ⟨some t, some u, false⟩
    | .response false _ => ⟨none, none, false⟩
    | .fetchError => ⟨none, none, false⟩

/-! ## Part 2: PDF report renderer (src/src/lib/api.ts, pdf-export file) -/

/-- A JavaScript string, embedded as its character sequence. -/
abbrev Str := List Char

/-- Coerce a Lean string literal to the embedding. -/
def str (s : String) : Str := s.toList

/-- JS whitespace as relevant to `String.prototype.trim` on the inputs at
hand (space, tab, newline, carriage return). -/
def isWS (c : Char) : Bool := c = ' ' ∨ c = '\t' ∨ c = '\n' ∨ c = '\r'

/-- `String.prototype.trim`: strip whitespace from both ends. -/
def jsTrim (s : Str) : Str :=
  ((s.dropWhile isWS).reverse.dropWhile isWS).reverse

/-- `String.prototype.split` on a one-character separator: keeps empty
pieces, `"".split(sep)` is `[""]`, a trailing separator yields a trailing
empty piece. -/
def jsSplit (sep : Char) : Str → List Str
  | [] => [[]]
  | c :: cs =>
    match jsSplit sep cs with
    | [] => [[]]
    | p :: ps => if c = sep then [] :: p :: ps else (c :: p) :: ps

/-- Join pieces with a one-character separator (inverse of `jsSplit`; used
in statements to speak about lines as joins of words). -/
def joinSep (sep : Char) : List Str → Str
  | [] => []
  | [w] => w
  | w :: ws => w ++ sep :: joinSep sep ws

/-- The inner word loop of `wrapText` (src/src/lib/api.ts lines 188-204):
greedy fill of `currentLine`; `testLine` is `currentLine ? `${currentLine}
${word}` : word`; a break happens when `pdf.getTextWidth(testLine) >
maxWidth && currentLine`; a non-empty final `currentLine` is pushed.
`tw` is the environment's `getTextWidth` metric. -/
def wrapLine (tw : Str → ℚ) (maxWidth : ℚ) : Str → List Str → List Str
  | currentLine, [] => if currentLine.isEmpty then [] else [currentLine]
  | currentLine, word :: rest =>
    let testLine := if currentLine.isEmpty then word else currentLine ++ ' ' :: word
    if maxWidth < tw testLine ∧ ¬ currentLine.isEmpty then
      currentLine :: wrapLine tw maxWidth word rest
    else
      wrapLine tw maxWidth testLine rest

/-- `wrapText(text, maxWidth, pdf)` (src/src/lib/api.ts lines 177-208):
split into paragraphs on `'\n'`; a paragraph that trims to empty contributes
one empty line; any other paragraph is split on `' '` and greedily wrapped. -/
def wrapText (text : Str) (maxWidth : ℚ) (tw : Str → ℚ) : List Str :=
  (jsSplit '\n' text).flatMap fun paragraph =>
    if (jsTrim paragraph).isEmpty then [[]]
    else wrapLine tw maxWidth [] (jsSplit ' ' paragraph)

/-- `line.replace(/\*\*/g, '')`: delete every (non-overlapping, left-to-right)
occurrence of `**`. -/
def removeStars : Str → Str
  | '*' :: '*' :: rest => removeStars rest
  | c :: rest => c :: removeStars rest
  | [] => []

/-- `line.replace(/^#+\s*/, '')`: when the line starts with `#`, drop the
leading run of `#` and the whitespace that follows it; otherwise unchanged. -/
def stripHashPrefix (s : Str) : Str :=
  if s.head? = some '#' then (s.dropWhile (· = '#')).dropWhile isWS else s

/-- One drawing block of the produced document, in emission order. The
graphics state (fonts, colours, rectangles) is abstracted into the block
kind; `newPage` records an `addPage` call. -/
inductive Block where
  | headerAccent
  | title (t : Str)
  | subtitle (t : Str)
  | divider
  | ideaHeading
  | ideaLine (l : Str)
  | marketHeading
  | marketText (t : Str)
  | dateStatus (t : Str)
  | newPage
  | sectionHeader (icon : Str) (sectionTitle : Str)
  | heading (t : Str)
  | bullet (t : Str)
  | body (t : Str)
  | footer
deriving DecidableEq, Repr

/-- Rendering of one wrapped content line (src/src/lib/api.ts lines
353-364): a line starting with `**` or `#` becomes a bold heading with all
`**` and the leading `#` run (plus following whitespace) stripped; a line
starting with `"- "` or `"• "` becomes an indented bullet (two spaces
prepended, marker kept); anything else is plain body text. -/
def renderLine (line : Str) : Block :=
  if (str "**").isPrefixOf line ∨ (str "#").isPrefixOf line then
    .heading (stripHashPrefix (removeStars line))
  else if (str "- ").isPrefixOf line ∨ (str "• ").isPrefixOf line then
    .bullet (str "  " ++ line)
  else
    .body line

/-- `Project['status']`. -/
inductive ProjectStatus where
  | pending
  | analyzing
  | completed
  | failed
deriving DecidableEq, Repr

/-- The `Project` record of `@/types/project` (seven-section variant), the
shape `exportToPDF` consumes: each analysis column is nullable. -/
structure Project where
  id : Str
  startup_idea : Str
  target_market : Option Str
  market_analysis : Option Str
  cost_prediction : Option Str
  business_strategy : Option Str
  monetization : Option Str
  legal_considerations : Option Str
  tech_stack : Option Str
  strategist_critique : Option Str
  status : ProjectStatus
  created_at : Str
deriving DecidableEq, Repr

/-- `keyof AnalysisResult`: the closed set of agent/section keys. -/
inductive AgentId where
  | marketAnalysis
  | costPrediction
  | businessStrategy
  | monetization
  | legalConsiderations
  | techStack
  | strategistCritique
deriving DecidableEq, Repr

/-- An entry of `AGENT_CARDS` in `@/types/project`. -/
structure AgentCard where
  id : AgentId
  cardTitle : Str
  icon : Str
  description : Str
  color : Str
deriving DecidableEq, Repr

/-- The `AGENT_CARDS` constant (seven-section variant). -/
def AGENT_CARDS : List AgentCard :=
  [⟨.marketAnalysis, str "Market Analysis", str "📈",
    str "Market size, competition, and opportunity assessment",
    str "from-teal-500/20 to-teal-600/10"⟩,
   ⟨.costPrediction, str "Cost Prediction", str "💰",
    str "Startup costs, burn rate, and financial planning",
    str "from-amber-500/20 to-amber-600/10"⟩,
   ⟨.businessStrategy, str "Business Strategy", str "🎯",
    str "Go-to-market strategy and competitive positioning",
    str "from-blue-500/20 to-blue-600/10"⟩,
   ⟨.monetization, str "Monetization Models", str "💳",
    str "Revenue models and pricing strategies",
    str "from-purple-500/20 to-purple-600/10"⟩,
   ⟨.legalConsiderations, str "Legal Considerations", str "⚖️",
    str "Compliance, IP protection, and legal structure",
    str "from-rose-500/20 to-rose-600/10"⟩,
   ⟨.techStack, str "Tech Architecture", str "💻",
    str "Technology recommendations and MVP planning",
    str "from-indigo-500/20 to-indigo-600/10"⟩,
   ⟨.strategistCritique, str "Strategic Synthesis", str "🔮",
    str "Refined strategy after Strategist vs Critic debate",
    str "from-emerald-500/20 to-emerald-600/10"⟩]

/-- The `analysisData` record built at src/src/lib/api.ts lines 311-319:
maps each agent key to the corresponding nullable Project column. -/
def analysisData (p : Project) : AgentId → Option Str
  | .marketAnalysis => p.market_analysis
  | .costPrediction => p.cost_prediction
  | .businessStrategy => p.business_strategy
  | .monetization => p.monetization
  | .legalConsiderations => p.legal_considerations
  | .techStack => p.tech_stack
  | .strategistCritique => p.strategist_critique

/-- A4 page geometry in mm (`jsPDF` `format: 'a4'`, `unit: 'mm'`). -/
def pageWidth : ℚ := 210

/-- A4 page height in mm. -/
def pageHeight : ℚ := 297

/-- `margin = 20`. -/
def margin : ℚ := 20

/-- `contentWidth = pageWidth - margin * 2`. -/
def contentWidth : ℚ := pageWidth - margin * 2

/-- The per-line loop of a section's content (src/src/lib/api.ts lines
348-367): before each line, a page break when `yPosition > pageHeight - 20`
(resetting `yPosition` to the 25 returned by `addPage`); each line advances
`yPosition` by 4.5. Returns the final `yPosition` and the emitted blocks. -/
def renderContentLines : List Str → ℚ → ℚ × List Block
  | [], y => (y, [])
  | line :: rest, y =>
    let stepped : ℚ × List Block :=
      if pageHeight - 20 < y then (25, [Block.newPage]) else (y, [])
    let tail := renderContentLines rest (stepped.1 + 4.5)
    (tail.1, stepped.2 ++ renderLine line :: tail.2)

/-- One non-skipped section of the loop at src/src/lib/api.ts lines 321-370:
a page break when `yPosition > pageHeight - 60`, the section header
(advancing y by 16), the wrapped content lines, then `yPosition += 10`. -/
def renderSection (agent : AgentCard) (content : Str) (y : ℚ) (tw : Str → ℚ) :
    ℚ × List Block :=
  let stepped : ℚ × List Block :=
    if pageHeight - 60 < y then (25, [Block.newPage]) else (y, [])
  let lines := wrapText content (contentWidth - 10) tw
  let tail := renderContentLines lines (stepped.1 + 16)
  (tail.1 + 10, stepped.2 ++ Block.sectionHeader agent.icon agent.cardTitle :: tail.2)

/-- The `for (const agent of AGENT_CARDS)` loop: a falsy content
(`null`/absent or the empty string — `if (!content) continue`) skips the
section entirely. -/
def sectionsBlocks (p : Project) (tw : Str → ℚ) : ℚ → List AgentCard → ℚ × List Block
  | y, [] => (y, [])
  | y, agent :: rest =>
    match analysisData p agent.id with
    | none => sectionsBlocks p tw y rest
    | some content =>
      if content.isEmpty then sectionsBlocks p tw y rest
      else
        let sec := renderSection agent content y tw
        let tail := sectionsBlocks p tw sec.1 rest
        (tail.1, sec.2 ++ tail.2)

/-- `status.toUpperCase()` over the status literals. -/
def statusText : ProjectStatus → Str
  | .pending => str "pending"
  | .analyzing => str "analyzing"
  | .completed => str "completed"
  | .failed => str "failed"

/-- `String.prototype.toUpperCase` on the ASCII status words. -/
def jsToUpperCase (s : Str) : Str := s.map Char.toUpper

/-- JS truthiness of a nullable string (`if (project.target_market)`). -/
def strTruthy : Option Str → Bool
  | none => false
  | some s => ¬ s.isEmpty

/-- The `Generated: ${date}  •  Status: ${...}` line; `formatDate` is the
environment's `toLocaleDateString`. -/
def dateStatusText (formatDate : Str → Str) (p : Project) : Str :=
  str "Generated: " ++ formatDate p.created_at ++ str "  •  Status: "
    ++ jsToUpperCase (statusText p.status)

/-- Everything `exportToPDF` draws before the section loop (src/src/lib/api.ts
lines 231-308): accent bar, title, subtitle, divider, the idea card with at
most four wrapped idea lines, the target-market card when the field is
truthy (text truncated to 100 characters), and the date/status line. -/
def exportHeader (p : Project) (tw : Str → ℚ) (formatDate : Str → Str) : List Block :=
  [Block.headerAccent, Block.title (str "Startup Analysis Report"),
   Block.subtitle (str "AI-Powered Strategic Analysis"), Block.divider, Block.ideaHeading]
  ++ ((wrapText p.startup_idea (contentWidth - 16) tw).take 4).map Block.ideaLine
  ++ (if strTruthy p.target_market then
        [Block.marketHeading, Block.marketText ((p.target_market.getD []).take 100)]
      else [])
  ++ [Block.dateStatus (dateStatusText formatDate p)]

/-- `yPosition` when the section loop starts: 25 + 30 (title) + 15
(subtitle) + 15 (divider) + 50 (idea card) + 30 when the market card was
drawn + 20 (date line). -/
def exportStartY (p : Project) : ℚ :=
  if strTruthy p.target_market then 185 else 155

/-- `exportToPDF(project)` (src/src/lib/api.ts lines 218-385) as the ordered
list of drawing blocks: the header part, the agent sections, the footer. -/
def exportToPDF (p : Project) (tw : Str → ℚ) (formatDate : Str → Str) : List Block :=
  exportHeader p tw formatDate
  ++ (sectionsBlocks p tw (exportStartY p) AGENT_CARDS).2
  ++ [Block.footer]

/-- A block originating from the agent-section loop. -/
def isSectionBlock : Block → Bool
  | .sectionHeader _ _ => true
  | .heading _ => true
  | .bullet _ => true
  | .body _ => true
  | .newPage => true
  | _ => false

/-- The words of a text, paragraph-wise: empty paragraphs contribute none,
each other paragraph its space-split pieces (statement vocabulary). -/
def textWords (text : Str) : List Str :=
  (jsSplit '\n' text).flatMap fun p => if p.isEmpty then [] else jsSplit ' ' p

/-- A concrete width metric for witnesses: the character count. -/
def lenQ (s : Str) : ℚ := s.length

/-- A concrete project with all seven analysis sections null, for witnesses. -/
def sampleProject : Project :=
  ⟨str "d0b3ef5b", str "A pan-galactic coffee subscription", some (str "remote crews"),
   none, none, none, none, none, none, none, .pending, str "2026-01-04T17:02:24Z"⟩

/-! ## Lemmas and claims -/

/-- Sanity: an attempt fails in the sense of `attemptFailure` exactly when
its step produces an error. -/
theorem attemptFailure_iff (o : AnalyzeOutcome) :
    attemptFailure o ↔ ∃ m, attemptStep o = .error m := by
  constructor
  · rintro (⟨m, rfl⟩ | ⟨s, b, rfl, hs⟩ | ⟨s, b, rfl, hs, hb⟩)
    · exact ⟨m, rfl⟩
    · exact ⟨b.error.getD
        s!"Analysis failed ({s}). If the backend was sleeping, wait ~30s and try again.",
        by simp [attemptStep, hs]⟩
    · exact ⟨b.error.getD "Analysis failed",
        by simp [attemptStep, hs, handleOkResponse, hb]⟩
  · rintro ⟨m, hm⟩
    cases o with
    | transportError msg => exact Or.inl ⟨msg, rfl⟩
    | response s b =>
      by_cases hs : httpOk s
      · refine Or.inr (Or.inr ⟨s, b, rfl, hs, ?_⟩)
        by_contra hb
        simp only [Bool.not_eq_false] at hb
        simp [attemptStep, hs, handleOkResponse, hb] at hm
      · exact Or.inr (Or.inl ⟨s, b, rfl, hs⟩)

/-! ## Claims about the orchestration -/

/-- C1: for every analyze response with HTTP status 200, `analyzeStartup`
inspects the body's `success` flag; when it is absent or falsy the handling
raises an error carrying the body's `error` message (default
`"Analysis failed"`) and never returns the analysis through the success
path (`return data.analysis`); in particular, when such a response answers
the deciding (second) attempt of the retry variant, the whole call fails
with exactly that message. -/
theorem c1_success_flag_gates_ok (body : AnalyzeBody) (h : body.success = false) :
    handleOkResponse body = .error (body.error.getD "Analysis failed") ∧
    (∀ a, handleOkResponse body ≠ .ok a) ∧
    (∀ healthOk o1, attemptFailure o1 →
      (analyzeStartupRetry healthOk o1 (.response 200 body)).result =
        .error (body.error.getD "Analysis failed")) := by
  refine ⟨by simp [handleOkResponse, h], by simp [handleOkResponse, h], ?_⟩
  intro healthOk o1 h1
  obtain ⟨m, hm⟩ := (attemptFailure_iff o1).mp h1
  have h200 : httpOk 200 := by constructor <;> norm_num
  have hstep : attemptStep (.response 200 body) = .error (body.error.getD "Analysis failed") := by
    simp [attemptStep, h200, handleOkResponse, h]
  simp [analyzeStartupRetry, hm, hstep]

/-- Witness for C1 at a concrete 200-response body with `success:false` and
message `"boom"`, with the first attempt a transport error. -/
theorem c1_success_flag_gates_ok_witness :
    (AnalyzeBody.mk false (some "boom") ⟨"m", "c", "b", "z", "l", "t", "s"⟩).success = false ∧
    handleOkResponse ⟨false, some "boom", ⟨"m", "c", "b", "z", "l", "t", "s"⟩⟩ =
      .error "boom" ∧
    (analyzeStartupRetry true (.transportError "down")
      (.response 200 ⟨false, some "boom", ⟨"m", "c", "b", "z", "l", "t", "s"⟩⟩)).result =
      .error "boom" := by
  have h := c1_success_flag_gates_ok ⟨false, some "boom", ⟨"m", "c", "b", "z", "l", "t", "s"⟩⟩ rfl
  exact ⟨rfl, h.1, h.2.2 true (.transportError "down") (Or.inl ⟨"down", rfl⟩)⟩

/-- C2: in the retry variant, a first attempt answered with a server-error
status (≥ 500) leads to exactly one retry after a single fixed 8000 ms
backoff; a second attempt answered 200 with a truthy `success` flag has its
analysis returned; and no run ever issues more than two analyze requests. -/
theorem c2_server_error_retries_once (healthOk : Bool) (s : Nat) (b1 b2 : AnalyzeBody)
    (h5 : 500 ≤ s) (hsucc : b2.success = true) :
    analyzeStartupRetry healthOk (.response s b1) (.response 200 b2) =
      ⟨2, [8000], .ok b2.analysis⟩ ∧
    ∀ healthOk' o1 o2, (analyzeStartupRetry healthOk' o1 o2).requests ≤ 2 := by
  constructor
  · have hnok : ¬ httpOk s := by
      rintro ⟨-, hlt⟩; omega
    have h200 : httpOk 200 := by constructor <;> norm_num
    simp [analyzeStartupRetry, attemptStep, hnok, h200, handleOkResponse, hsucc]
  · intro healthOk' o1 o2
    unfold analyzeStartupRetry
    rcases attemptStep o1 with m | a
    · rcases attemptStep o2 with m' | a' <;> simp
    · simp

/-- Witness for C2: first attempt 503, second attempt 200 with a truthy
flag; the trace shows two requests, one 8000 ms backoff, and the second
body's analysis as result. -/
theorem c2_server_error_retries_once_witness :
    500 ≤ 503 ∧
    (AnalyzeBody.mk true none ⟨"m", "c", "b", "z", "l", "t", "s"⟩).success = true ∧
    analyzeStartupRetry false (.response 503 ⟨false, none, ⟨"x", "x", "x", "x", "x", "x", "x"⟩⟩)
        (.response 200 ⟨true, none, ⟨"m", "c", "b", "z", "l", "t", "s"⟩⟩) =
      ⟨2, [8000], .ok ⟨"m", "c", "b", "z", "l", "t", "s"⟩⟩ := by
  refine ⟨by norm_num, rfl, ?_⟩
  exact (c2_server_error_retries_once false 503 _ _ (by norm_num) rfl).1

/-- C3: in the retry variant, when both attempts fail (transport error,
non-2xx status, or a 200 body with falsy `success`), the call fails and the
surfaced message is `attemptErrMsg o2` — a function of the second attempt's
outcome alone, so the first attempt's message is never the one surfaced. -/
theorem c3_second_failure_message_surfaces (healthOk : Bool) (o1 o2 : AnalyzeOutcome)
    (h1 : attemptFailure o1) (h2 : attemptFailure o2) :
    (analyzeStartupRetry healthOk o1 o2).result = .error (attemptErrMsg o2) := by
  obtain ⟨m1, hm1⟩ := (attemptFailure_iff o1).mp h1
  obtain ⟨m2, hm2⟩ := (attemptFailure_iff o2).mp h2
  simp [analyzeStartupRetry, hm1, hm2, attemptErrMsg]

/-- Witness for C3: first attempt times out with message `"first down"`,
second attempt is a 400 response with body message `"second bad"`; the call
surfaces `"second bad"`. -/
theorem c3_second_failure_message_surfaces_witness :
    attemptFailure (.transportError "first down") ∧
    attemptFailure (.response 400 ⟨false, some "second bad", ⟨"x", "x", "x", "x", "x", "x", "x"⟩⟩) ∧
    (analyzeStartupRetry true (.transportError "first down")
      (.response 400 ⟨false, some "second bad", ⟨"x", "x", "x", "x", "x", "x", "x"⟩⟩)).result =
      .error "second bad" := by
  have hf1 : attemptFailure (.transportError "first down") := Or.inl ⟨_, rfl⟩
  have hf2 : attemptFailure
      (.response 400 ⟨false, some "second bad", ⟨"x", "x", "x", "x", "x", "x", "x"⟩⟩) := by
    refine Or.inr (Or.inl ⟨400, _, rfl, ?_⟩)
    rintro ⟨-, hlt⟩; omega
  refine ⟨hf1, hf2, ?_⟩
  have h := c3_second_failure_message_surfaces true _ _ hf1 hf2
  simpa [attemptErrMsg, attemptStep, httpOk] using h

/-- C4: in the failover variant, every failure of the Django provider —
transport error, non-2xx status, or 200 with a falsy `success` flag — leads
unconditionally to one attempt against the built-in backend function; the
Django failure is never surfaced and the run is `fallbackResult fb`, a
function of the second provider's outcome alone. -/
theorem c4_failover_unconditional (dj : AnalyzeOutcome) (fb : InvokeOutcome)
    (h : attemptFailure dj) :
    analyzeStartupFailover dj fb = ⟨true, fallbackResult fb⟩ := by
  have hnone : djangoAttempt dj = none := by
    rcases h with ⟨m, rfl⟩ | ⟨s, b, rfl, hs⟩ | ⟨s, b, rfl, hs, hb⟩
    · rfl
    · simp [djangoAttempt, hs]
    · simp [djangoAttempt, hs, handleOkResponse, hb]
  simp [analyzeStartupFailover, hnone]

/-- Witness for C4: Django answers 200 with `success:false`; the fallback
function answers with a truthy body, whose analysis the caller receives. -/
theorem c4_failover_unconditional_witness :
    attemptFailure (.response 200 ⟨false, some "django says no", ⟨"x", "x", "x", "x", "x", "x", "x"⟩⟩) ∧
    analyzeStartupFailover
      (.response 200 ⟨false, some "django says no", ⟨"x", "x", "x", "x", "x", "x", "x"⟩⟩)
      (.invokeData ⟨true, none, ⟨"m", "c", "b", "z", "l", "t", "s"⟩⟩) =
      ⟨true, .ok ⟨"m", "c", "b", "z", "l", "t", "s"⟩⟩ := by
  have hf : attemptFailure
      (.response 200 ⟨false, some "django says no", ⟨"x", "x", "x", "x", "x", "x", "x"⟩⟩) := by
    refine Or.inr (Or.inr ⟨200, _, rfl, ⟨by norm_num, by norm_num⟩, rfl⟩)
  refine ⟨hf, ?_⟩
  have h := c4_failover_unconditional _
    (.invokeData ⟨true, none, ⟨"m", "c", "b", "z", "l", "t", "s"⟩⟩) hf
  simpa [fallbackResult, handleOkResponse] using h

/-- C5: with an empty idea text the modelled client submission issues no
analyze request, and no analyze request ever put on the wire carries an
empty `startupIdea`. -/
theorem c5_empty_idea_no_request (idea : String) (tm : Option String) (pid : String)
    (healthOk : Bool) (o1 o2 : AnalyzeOutcome) (h : idea = "") :
    submitIdea idea tm pid healthOk o1 o2 = [] ∧
    ∀ idea' tm' pid' healthOk' o1' o2' r,
      r ∈ submitIdea idea' tm' pid' healthOk' o1' o2' → r.startupIdea ≠ "" := by
  constructor
  · simp [submitIdea, h]
  · intro idea' tm' pid' healthOk' o1' o2' r hr
    unfold submitIdea at hr
    by_cases h' : idea' = ""
    · simp [h'] at hr
    · simp only [h', if_false] at hr
      have := List.eq_of_mem_replicate hr
      simp [this, h']

/-- Witness for C5 at the empty idea, a concrete market and id, and a
concrete pair of outcomes. -/
theorem c5_empty_idea_no_request_witness :
    ("" : String) = "" ∧
    submitIdea "" (some "smb") "p1" true
      (.response 200 ⟨true, none, ⟨"m", "c", "b", "z", "l", "t", "s"⟩⟩)
      (.transportError "down") = [] :=
  ⟨rfl, (c5_empty_idea_no_request "" (some "smb") "p1" true
    (.response 200 ⟨true, none, ⟨"m", "c", "b", "z", "l", "t", "s"⟩⟩)
    (.transportError "down") rfl).1⟩

/-- C8: when a stored token is present and the `/auth/me` check either
answers non-OK or throws, `checkAuth` removes the stored token and ends
unauthenticated with `loading` false (and, being a total function, surfaces
no error). -/
theorem c8_failed_token_check_clears (t : String) (o : AuthCheckOutcome)
    (h : o = .fetchError ∨ ∃ u, o = .response false u) :
    checkAuth (some t) o = ⟨none, none, false⟩ := by
  rcases h with rfl | ⟨u, rfl⟩ <;> rfl

/-- Witness for C8 at a stored token and a non-OK response. -/
theorem c8_failed_token_check_clears_witness :
    ((AuthCheckOutcome.response false ⟨"alice"⟩) = .fetchError ∨
      ∃ u, (AuthCheckOutcome.response false ⟨"alice"⟩) = .response false u) ∧
    checkAuth (some "tok123") (.response false ⟨"alice"⟩) = ⟨none, none, false⟩ :=
  ⟨Or.inr ⟨⟨"alice"⟩, rfl⟩,
    c8_failed_token_check_clears "tok123" _ (Or.inr ⟨⟨"alice"⟩, rfl⟩)⟩

/-- C9: the REST `getProject` returns `null` exactly on a 404 status,
without throwing; any other non-OK status throws the body's `error` message
(default `"Failed to fetch project"`); an OK status returns the parsed
project. -/
theorem c9_getProject_cases (status : Nat) (errField : Option String) (proj : α) :
    (getProject status errField proj = .ok none ↔ status = 404) ∧
    (status ≠ 404 → ¬ httpOk status →
      getProject status errField proj = .error (errField.getD "Failed to fetch project")) ∧
    (httpOk status → getProject status errField proj = .ok (some proj)) := by
  refine ⟨⟨?_, ?_⟩, ?_, ?_⟩
  · intro h
    by_contra h404
    unfold getProject at h
    rw [if_neg h404] at h
    by_cases hok : httpOk status
    · simp [hok] at h
    · simp [hok] at h
  · intro h; simp [getProject, h]
  · intro h404 hok; simp [getProject, h404, hok]
  · intro hok
    have h404 : status ≠ 404 := by
      rintro rfl; exact absurd hok.2 (by norm_num)
    simp [getProject, h404, hok]

/-- Witness for C9: at status 404 it returns `null`; at 500 with message
`"oops"` it throws `"oops"`; at 200 it returns the project. -/
theorem c9_getProject_cases_witness :
    getProject 404 (some "oops") "proj" = .ok none ∧
    getProject 500 (some "oops") "proj" = .error "oops" ∧
    getProject 200 (some "oops") "proj" = .ok (some "proj") := by
  refine ⟨((c9_getProject_cases 404 (some "oops") "proj").1).mpr rfl, ?_, ?_⟩
  · have h := (c9_getProject_cases 500 (some "oops") "proj").2.1
      (by norm_num) (by rintro ⟨-, h⟩; omega)
    simpa using h
  · exact (c9_getProject_cases 200 (some "oops") "proj").2.2 ⟨by norm_num, by norm_num⟩

/-- C6: PDF export skips each analysis section whose content is null; with
all seven sections null the document is exactly the header/idea/market part
followed by the footer, with zero agent-section blocks (and no page break). -/
theorem c6_null_sections_skipped (p : Project) (tw : Str → ℚ) (formatDate : Str → Str)
    (h1 : p.market_analysis = none) (h2 : p.cost_prediction = none)
    (h3 : p.business_strategy = none) (h4 : p.monetization = none)
    (h5 : p.legal_considerations = none) (h6 : p.tech_stack = none)
    (h7 : p.strategist_critique = none) :
    exportToPDF p tw formatDate = exportHeader p tw formatDate ++ [Block.footer] ∧
    ∀ b ∈ exportToPDF p tw formatDate, isSectionBlock b = false := by
  have hsec : sectionsBlocks p tw (exportStartY p) AGENT_CARDS = (exportStartY p, []) := by
    simp [AGENT_CARDS, sectionsBlocks, analysisData, h1, h2, h3, h4, h5, h6, h7]
  have hmain : exportToPDF p tw formatDate = exportHeader p tw formatDate ++ [Block.footer] := by
    simp [exportToPDF, hsec]
  refine ⟨hmain, ?_⟩
  intro b hb
  rw [hmain] at hb
  rcases List.mem_append.mp hb with hb | hb
  · unfold exportHeader at hb
    rcases List.mem_append.mp hb with hb | hb
    · rcases List.mem_append.mp hb with hb | hb
      · rcases List.mem_append.mp hb with hb | hb
        · simp only [List.mem_cons, List.not_mem_nil, or_false] at hb
          rcases hb with rfl | rfl | rfl | rfl | rfl <;> rfl
        · obtain ⟨l, -, rfl⟩ := List.mem_map.mp hb
          rfl
      · split at hb
        · simp only [List.mem_cons, List.not_mem_nil, or_false] at hb
          rcases hb with rfl | rfl <;> rfl
        · simp at hb
    · simp only [List.mem_singleton] at hb
      subst hb; rfl
  · simp only [List.mem_singleton] at hb
    subst hb; rfl

/-- Witness for C6 at `sampleProject` (all seven sections null), a zero
width metric, and the identity date formatter. -/
theorem c6_null_sections_skipped_witness :
    sampleProject.market_analysis = none ∧ sampleProject.cost_prediction = none ∧
    sampleProject.business_strategy = none ∧ sampleProject.monetization = none ∧
    sampleProject.legal_considerations = none ∧ sampleProject.tech_stack = none ∧
    sampleProject.strategist_critique = none ∧
    exportToPDF sampleProject (fun _ => 0) (fun d => d) =
      exportHeader sampleProject (fun _ => 0) (fun d => d) ++ [Block.footer] ∧
    ∀ b ∈ exportToPDF sampleProject (fun _ => 0) (fun d => d), isSectionBlock b = false := by
  have h := c6_null_sections_skipped sampleProject (fun _ => 0) (fun d => d)
    rfl rfl rfl rfl rfl rfl rfl
  exact ⟨rfl, rfl, rfl, rfl, rfl, rfl, rfl, h.1, h.2⟩

/-- C7: in section rendering, every wrapped line starting with `**` or `#`
becomes a bold heading with all `**` occurrences and the leading `#` run
(and its trailing whitespace) stripped; every line starting with `"- "` or
`"• "` becomes an indented bullet; every other line is plain body text. -/
theorem c7_markdown_line_rendering (line : Str) :
    (str "**" <+: line ∨ str "#" <+: line →
      renderLine line = .heading (stripHashPrefix (removeStars line))) ∧
    (str "- " <+: line ∨ str "• " <+: line →
      renderLine line = .bullet (str "  " ++ line)) ∧
    (¬ (str "**" <+: line ∨ str "#" <+: line) →
      ¬ (str "- " <+: line ∨ str "• " <+: line) →
      renderLine line = .body line) := by
  refine ⟨fun h => by simp [renderLine, h], fun h => ?_, fun h1 h2 => by simp [renderLine, h1, h2]⟩
  have hnothead : ¬ (str "**" <+: line ∨ str "#" <+: line) := by
    rcases h with ⟨t, rfl⟩ | ⟨t, rfl⟩ <;>
      rintro (⟨u, habs⟩ | ⟨u, habs⟩) <;> simp [str] at habs
  simp [renderLine, hnothead, h]

/-- Witness for C7 at one heading line of each kind, one bullet line of each
kind, and one plain line. -/
theorem c7_markdown_line_rendering_witness :
    renderLine (str "**Key Risks**") = .heading (str "Key Risks") ∧
    renderLine (str "## Revenue") = .heading (str "Revenue") ∧
    renderLine (str "- churn") = .bullet (str "  - churn") ∧
    renderLine (str "• churn") = .bullet (str "  • churn") ∧
    renderLine (str "plain words") = .body (str "plain words") := by
  refine ⟨?_, ?_, ?_, ?_, ?_⟩
  · rw [(c7_markdown_line_rendering (str "**Key Risks**")).1 (Or.inl (by decide))]; decide
  · rw [(c7_markdown_line_rendering (str "## Revenue")).1 (Or.inr (by decide))]; decide
  · rw [(c7_markdown_line_rendering (str "- churn")).2.1 (Or.inl (by decide))]; decide
  · rw [(c7_markdown_line_rendering (str "• churn")).2.1 (Or.inr (by decide))]; decide
  · exact (c7_markdown_line_rendering (str "plain words")).2.2 (by decide) (by decide)

/-- Unfolding of `wrapLine` on the empty word list. -/
theorem wrapLine_nil (tw : Str → ℚ) (mw : ℚ) (cur : Str) :
    wrapLine tw mw cur [] = if cur.isEmpty then [] else [cur] := rfl

/-- Unfolding of `wrapLine` on a word list with head. -/
theorem wrapLine_cons (tw : Str → ℚ) (mw : ℚ) (cur w : Str) (rest : List Str) :
    wrapLine tw mw cur (w :: rest) =
      if mw < tw (if cur.isEmpty then w else cur ++ ' ' :: w) ∧ ¬ cur.isEmpty then
        cur :: wrapLine tw mw w rest
      else wrapLine tw mw (if cur.isEmpty then w else cur ++ ' ' :: w) rest := rfl

/-- `joinSep` on a two-or-more element list. -/
theorem joinSep_cons2 (sep : Char) (w v : Str) (ws : List Str) :
    joinSep sep (w :: v :: ws) = w ++ sep :: joinSep sep (v :: ws) := rfl

/-- `jsSplit` never produces the empty list of pieces. -/
theorem jsSplit_ne_nil (sep : Char) (s : Str) : jsSplit sep s ≠ [] := by
  cases s with
  | nil => simp [jsSplit]
  | cons c cs =>
    rcases h : jsSplit sep cs with _ | ⟨p, ps⟩
    · show ¬ (match jsSplit sep cs with
        | [] => [[]]
        | p :: ps => if c = sep then [] :: p :: ps else (c :: p) :: ps) = []
      rw [h]
      simp
    · show ¬ (match jsSplit sep cs with
        | [] => [[]]
        | p :: ps => if c = sep then [] :: p :: ps else (c :: p) :: ps) = []
      rw [h]
      show ¬ (if c = sep then [] :: p :: ps else (c :: p) :: ps) = []
      split <;> simp

/-- Joining the pieces of a split recovers the original string. -/
theorem joinSep_jsSplit (sep : Char) (s : Str) : joinSep sep (jsSplit sep s) = s := by
  induction s with
  | nil => rfl
  | cons c cs ih =>
    rcases h : jsSplit sep cs with _ | ⟨p, ps⟩
    · exact absurd h (jsSplit_ne_nil sep cs)
    · rw [h] at ih
      show joinSep sep (match jsSplit sep cs with
        | [] => [[]]
        | p :: ps => if c = sep then [] :: p :: ps else (c :: p) :: ps) = c :: cs
      rw [h]
      show joinSep sep (if c = sep then [] :: p :: ps else (c :: p) :: ps) = c :: cs
      by_cases hc : c = sep
      · subst hc
        rw [if_pos rfl, joinSep_cons2, ih]
        rfl
      · rw [if_neg hc]
        cases ps with
        | nil =>
          rw [show joinSep sep [c :: p] = c :: p from rfl]
          rw [show joinSep sep [p] = p from rfl] at ih
          rw [ih]
        | cons q qs =>
          rw [joinSep_cons2] at ih ⊢
          rw [List.cons_append, ih]

/-- A join of a non-empty list of non-empty words is non-empty. -/
theorem joinSep_ne_nil (sep : Char) (ws : List Str) (h : ws ≠ [])
    (hw : ∀ w ∈ ws, w ≠ []) : joinSep sep ws ≠ [] := by
  cases ws with
  | nil => exact absurd rfl h
  | cons w ws' =>
    cases ws' with
    | nil => simpa using hw w (by simp)
    | cons v vs =>
      rw [joinSep_cons2]
      have hwne := hw w (by simp)
      simp [hwne]

/-- Appending one word to a join: the `testLine` identity. -/
theorem joinSep_append_single (sep : Char) (ws : List Str) (w : Str) :
    joinSep sep (ws ++ [w]) =
      if ws.isEmpty then w else joinSep sep ws ++ sep :: w := by
  induction ws with
  | nil => rfl
  | cons v vs ih =>
    cases vs with
    | nil => rfl
    | cons u us =>
      have ih' : joinSep sep (u :: (us ++ [w])) = joinSep sep (u :: us) ++ sep :: w := by
        simpa using ih
      rw [show ((v :: u :: us : List Str) ++ [w]) = v :: u :: (us ++ [w]) from rfl,
        joinSep_cons2, ih', if_neg (by simp : ¬((v :: u :: us : List Str).isEmpty = true))]
      simp [joinSep_cons2]

/-- Every character of every word occurs in the join. -/
theorem mem_joinSep (sep : Char) (c : Char) (w : Str) (hc : c ∈ w) :
    ∀ ws : List Str, w ∈ ws → c ∈ joinSep sep ws := by
  intro ws
  induction ws with
  | nil => intro h; simp at h
  | cons v vs ih =>
    intro hw
    rcases List.mem_cons.mp hw with rfl | hw'
    · cases vs with
      | nil => exact hc
      | cons u us => exact List.mem_append_left _ hc
    · cases vs with
      | nil => simp at hw'
      | cons u us =>
        rw [joinSep_cons2]
        exact List.mem_append_right _ (List.mem_cons_of_mem _ (ih hw'))

/-- An element not satisfying the predicate survives `dropWhile`. -/
theorem mem_dropWhileP {α : Type _} (P : α → Bool) (l : List α) (c : α)
    (hc : c ∈ l) (h : P c = false) : c ∈ l.dropWhile P := by
  induction l with
  | nil => simp at hc
  | cons a as ih =>
    by_cases ha : P a = true
    · rw [List.dropWhile_cons_of_pos ha]
      rcases List.mem_cons.mp hc with rfl | hc'
      · rw [h] at ha; cases ha
      · exact ih hc'
    · rw [List.dropWhile_cons_of_neg ha]
      exact hc

/-- A string containing a non-whitespace character does not trim to empty. -/
theorem jsTrim_ne_nil (s : Str) (c : Char) (hc : c ∈ s) (hw : isWS c = false) :
    jsTrim s ≠ [] := by
  unfold jsTrim
  intro habs
  have h1 : c ∈ s.dropWhile isWS := mem_dropWhileP isWS s c hc hw
  have h2 : c ∈ (s.dropWhile isWS).reverse := List.mem_reverse.mpr h1
  have h3 : c ∈ (s.dropWhile isWS).reverse.dropWhile isWS := mem_dropWhileP isWS _ c h2 hw
  rw [List.reverse_eq_nil_iff.mp habs] at h3
  simp at h3

/-- Invariant of the greedy word loop: starting from a current line that is
the join of a partial group `g` of non-empty words, the produced lines are
the joins of a partition `groups` of `g ++ ws` into non-empty consecutive
groups; under a monotone width metric, every over-wide word of `ws` (and an
over-wide singleton current group) ends alone on its own line. -/
theorem wrapLine_partition (tw : Str → ℚ) (mw : ℚ)
    (hmon : ∀ s t : Str, tw s ≤ tw (s ++ t) ∧ tw t ≤ tw (s ++ t)) :
    ∀ (ws : List Str) (g : List Str), (∀ w ∈ g, w ≠ []) → (∀ w ∈ ws, w ≠ []) →
    ∃ groups : List (List Str),
      wrapLine tw mw (joinSep ' ' g) ws = groups.map (joinSep ' ') ∧
      groups.flatten = g ++ ws ∧
      (∀ gr ∈ groups, gr ≠ []) ∧
      (∀ w ∈ ws, mw < tw w → [w] ∈ groups) ∧
      (∀ w0, g = [w0] → mw < tw w0 → [w0] ∈ groups) := by
  intro ws
  induction ws with
  | nil =>
    intro g hg _
    by_cases hgnil : g = []
    · subst hgnil
      refine ⟨[], rfl, by simp, by simp, by simp, ?_⟩
      intro w0 h
      simp at h
    · have hne : joinSep ' ' g ≠ [] := joinSep_ne_nil ' ' g hgnil hg
      refine ⟨[g], ?_, by simp, ?_, by simp, ?_⟩
      · rw [wrapLine_nil, if_neg (by simpa [List.isEmpty_iff] using hne)]
        simp
      · intro gr hgr
        rw [List.mem_singleton.mp hgr]
        exact hgnil
      · intro w0 hw0 _
        simp [hw0]
  | cons w rest ih =>
    intro g hg hws
    have hwne : w ≠ [] := hws w (by simp)
    have hrest : ∀ w' ∈ rest, w' ≠ [] := fun w' h' => hws w' (by simp [h'])
    by_cases hgnil : g = []
    · subst hgnil
      -- currentLine is empty, so no break can fire; the word becomes the line
      obtain ⟨groups, hmap, hflat, hne, hover, hsingle⟩ :=
        ih [w] (by intro x hx; rw [List.mem_singleton.mp hx]; exact hwne) hrest
      have hmap' : wrapLine tw mw w rest = groups.map (joinSep ' ') := hmap
      refine ⟨groups, ?_, ?_, hne, ?_, ?_⟩
      · rw [show joinSep ' ' ([] : List Str) = [] from rfl, wrapLine_cons]
        simp only [List.isEmpty_nil, if_true]
        rw [if_neg (by simp)]
        exact hmap'
      · rw [hflat]; simp
      · intro w' hw' hwide
        rcases List.mem_cons.mp hw' with rfl | h'
        · exact hsingle w' rfl hwide
        · exact hover w' h' hwide
      · intro w0 habs
        simp at habs
    · have hcurne : joinSep ' ' g ≠ [] := joinSep_ne_nil ' ' g hgnil hg
      have hcur_isEmpty : (joinSep ' ' g).isEmpty = false := by
        simpa [List.isEmpty_iff] using hcurne
      have htest : (if (joinSep ' ' g).isEmpty then w else joinSep ' ' g ++ ' ' :: w)
          = joinSep ' ' (g ++ [w]) := by
        rw [joinSep_append_single, if_neg (by simp [hcur_isEmpty]),
          if_neg (by simpa [List.isEmpty_iff] using hgnil)]
      rw [wrapLine_cons, htest]
      by_cases hbr : mw < tw (joinSep ' ' (g ++ [w]))
      · rw [if_pos ⟨hbr, by simp [hcur_isEmpty]⟩]
        obtain ⟨groups, hmap, hflat, hne, hover, hsingle⟩ :=
          ih [w] (by intro x hx; rw [List.mem_singleton.mp hx]; exact hwne) hrest
        have hmap' : wrapLine tw mw w rest = groups.map (joinSep ' ') := hmap
        refine ⟨g :: groups, ?_, ?_, ?_, ?_, ?_⟩
        · simp [hmap']
        · rw [List.flatten_cons, hflat]
          simp
        · intro gr hgr
          rcases List.mem_cons.mp hgr with rfl | h'
          · exact hgnil
          · exact hne gr h'
        · intro w' hw' hwide
          rcases List.mem_cons.mp hw' with rfl | h'
          · exact List.mem_cons_of_mem _ (hsingle w' rfl hwide)
          · exact List.mem_cons_of_mem _ (hover w' h' hwide)
        · intro w0 hgw0 _
          subst hgw0
          exact List.mem_cons_self _ _
      · rw [if_neg (by rintro ⟨hlt, -⟩; exact hbr hlt)]
        obtain ⟨groups, hmap, hflat, hne, hover, hsingle⟩ :=
          ih (g ++ [w])
            (by intro x hx
                rcases List.mem_append.mp hx with h' | h'
                · exact hg x h'
                · rw [List.mem_singleton.mp h']; exact hwne)
            hrest
        refine ⟨groups, hmap, ?_, hne, ?_, ?_⟩
        · rw [hflat]; simp
        · intro w' hw' hwide
          rcases List.mem_cons.mp hw' with rfl | h'
          · exfalso
            have hsuf : tw w' ≤ tw (joinSep ' ' (g ++ [w'])) := by
              rw [joinSep_append_single, if_neg (by simpa [List.isEmpty_iff] using hgnil),
                show joinSep ' ' g ++ ' ' :: w' = (joinSep ' ' g ++ [' ']) ++ w' by simp]
              exact (hmon _ _).2
            exact absurd (lt_of_lt_of_le hwide hsuf) hbr
          · exact hover w' h' hwide
        · intro w0 hgw0 hwide
          exfalso
          subst hgw0
          have hpre : tw w0 ≤ tw (joinSep ' ' ([w0] ++ [w])) := by
            rw [joinSep_append_single, if_neg (by simp),
              show joinSep ' ' [w0] = w0 from rfl]
            exact (hmon w0 (' ' :: w)).1
          exact absurd (lt_of_lt_of_le hwide hpre) hbr

/-- Paragraph-wise assembly of the `wrapText` guarantee over a list of
paragraphs: the produced lines are joins of a partition of the paragraph
words, over-wide words get their own line, and empty lines correspond
one-to-one to empty paragraphs. -/
theorem wrapParas_partition (tw : Str → ℚ) (mw : ℚ)
    (hmon : ∀ s t : Str, tw s ≤ tw (s ++ t) ∧ tw t ≤ tw (s ++ t)) :
    ∀ ps : List Str,
    (∀ p ∈ ps, p = [] ∨ ∀ w ∈ jsSplit ' ' p, w ≠ [] ∧ ∀ c ∈ w, isWS c = false) →
    ∃ groups : List (List Str),
      (ps.flatMap fun paragraph => if (jsTrim paragraph).isEmpty then [([] : Str)]
        else wrapLine tw mw [] (jsSplit ' ' paragraph)) = groups.map (joinSep ' ') ∧
      groups.flatten = (ps.flatMap fun p => if p.isEmpty then [] else jsSplit ' ' p) ∧
      (∀ w ∈ ps.flatMap fun p => if p.isEmpty then [] else jsSplit ' ' p,
        mw < tw w → [w] ∈ groups) ∧
      (ps.flatMap fun paragraph => if (jsTrim paragraph).isEmpty then [([] : Str)]
        else wrapLine tw mw [] (jsSplit ' ' paragraph)).count [] = ps.count [] := by
  intro ps
  induction ps with
  | nil => intro _; exact ⟨[], by simp, by simp, by simp, by simp⟩
  | cons p ps' ih =>
    intro h
    obtain ⟨groups', hmap', hflat', hover', hcount'⟩ :=
      ih fun q hq => h q (List.mem_cons_of_mem p hq)
    rcases h p (by simp) with rfl | hwords
    · -- empty paragraph: one empty line, no words
      refine ⟨[] :: groups', ?_, ?_, ?_, ?_⟩
      · rw [List.flatMap_cons, hmap', List.map_cons]
        rfl
      · rw [List.flatten_cons, hflat', List.flatMap_cons]
        rfl
      · intro w hw hwide
        rw [List.flatMap_cons] at hw
        have hw' : w ∈ ps'.flatMap fun p => if p.isEmpty then [] else jsSplit ' ' p := hw
        exact List.mem_cons_of_mem _ (hover' w hw' hwide)
      · rw [List.flatMap_cons]
        have hstep : (if (jsTrim ([] : Str)).isEmpty then [([] : Str)]
            else wrapLine tw mw [] (jsSplit ' ' [])) = [([] : Str)] := rfl
        rw [hstep, List.singleton_append, List.count_cons_self, hcount',
          List.count_cons_self]
    · -- non-empty paragraph with clean words
      have hpne : p ≠ [] := by
        rintro rfl
        exact absurd rfl (hwords [] (by rw [show jsSplit ' ' [] = [[]] from rfl]; simp)).1
      have hwne : ∀ w ∈ jsSplit ' ' p, w ≠ [] := fun w hw => (hwords w hw).1
      obtain ⟨w0, hw0mem⟩ : ∃ w0, w0 ∈ jsSplit ' ' p := by
        rcases hsp : jsSplit ' ' p with _ | ⟨w0, ws'⟩
        · exact absurd hsp (jsSplit_ne_nil ' ' p)
        · exact ⟨w0, by simp⟩
      obtain ⟨c0, hc0⟩ : ∃ c0, c0 ∈ w0 := by
        rcases hww : w0 with _ | ⟨c0, cs0⟩
        · exact absurd hww (hwne w0 hw0mem)
        · exact ⟨c0, by simp⟩
      have hc0p : c0 ∈ p := by
        have := mem_joinSep ' ' c0 w0 hc0 (jsSplit ' ' p) hw0mem
        rwa [joinSep_jsSplit] at this
      have htrimne : jsTrim p ≠ [] :=
        jsTrim_ne_nil p c0 hc0p ((hwords w0 hw0mem).2 c0 hc0)
      have htrim : (jsTrim p).isEmpty = false := by
        rcases hjt : jsTrim p with _ | ⟨x, xs⟩
        · exact absurd hjt htrimne
        · rfl
      have hpempty : p.isEmpty = false := by
        rcases hpp : p with _ | ⟨a, as⟩
        · exact absurd hpp hpne
        · rfl
      obtain ⟨groupsP, hmapP, hflatP, hneP, hoverP, -⟩ :=
        wrapLine_partition tw mw hmon (jsSplit ' ' p) [] (by simp) hwne
      have hmapP' : wrapLine tw mw [] (jsSplit ' ' p) = groupsP.map (joinSep ' ') := hmapP
      have hflatP' : groupsP.flatten = jsSplit ' ' p := by
        rw [hflatP]; rfl
      have hnolines : (wrapLine tw mw [] (jsSplit ' ' p)).count ([] : Str) = 0 := by
        rw [hmapP', List.count_eq_zero]
        intro habs
        obtain ⟨gr, hgr, hjoin⟩ := List.mem_map.mp habs
        have hgrw : ∀ x ∈ gr, x ≠ [] := by
          intro x hx
          have hxf : x ∈ groupsP.flatten := List.mem_flatten.mpr ⟨gr, hgr, hx⟩
          rw [hflatP'] at hxf
          exact hwne x hxf
        exact joinSep_ne_nil ' ' gr (hneP gr hgr) hgrw hjoin
      refine ⟨groupsP ++ groups', ?_, ?_, ?_, ?_⟩
      · rw [List.flatMap_cons, if_neg (by simp [htrim]), hmapP', hmap', List.map_append]
      · rw [List.flatten_append, hflatP', hflat', List.flatMap_cons,
          if_neg (by simp [hpempty])]
      · intro w hw hwide
        rw [List.flatMap_cons, if_neg (by simp [hpempty])] at hw
        rcases List.mem_append.mp hw with hw' | hw'
        · exact List.mem_append_left _ (hoverP w hw' hwide)
        · exact List.mem_append_right _ (hover' w hw' hwide)
      · rw [List.flatMap_cons, if_neg (by simp [htrim]), List.count_append,
          hnolines, hcount', List.count_cons, if_neg (by simp [hpne])]
        omega

/-- C10: for every text whose paragraphs are either empty or made of
non-empty whitespace-free words separated by single spaces, `wrapText`
preserves the content: the returned lines are the single-space joins of a
partition of the input's word sequence into consecutive non-empty groups
(no word dropped, duplicated, reordered, or broken apart); under a width
metric monotone in both append directions, a word wider than `mw` is
emitted unbroken as its own line; and the empty lines are exactly one per
empty paragraph. -/
theorem c10_wrapText_preserves_words (tw : Str → ℚ) (mw : ℚ) (text : Str)
    (hmon : ∀ s t : Str, tw s ≤ tw (s ++ t) ∧ tw t ≤ tw (s ++ t))
    (hwf : ∀ p ∈ jsSplit '\n' text,
      p = [] ∨ ∀ w ∈ jsSplit ' ' p, w ≠ [] ∧ ∀ c ∈ w, isWS c = false) :
    ∃ groups : List (List Str),
      wrapText text mw tw = groups.map (joinSep ' ') ∧
      groups.flatten = textWords text ∧
      (∀ w ∈ textWords text, mw < tw w → [w] ∈ groups) ∧
      (wrapText text mw tw).count [] = (jsSplit '\n' text).count [] :=
  wrapParas_partition tw mw hmon (jsSplit '\n' text) hwf

/-- Witness for C10 at the character-count metric, width 5, and the text
`"ab cd\n\nenormous xy"` (an over-wide word and an empty paragraph). -/
theorem c10_wrapText_preserves_words_witness :
    (∀ s t : Str, lenQ s ≤ lenQ (s ++ t) ∧ lenQ t ≤ lenQ (s ++ t)) ∧
    (∀ p ∈ jsSplit '\n' (str "ab cd\n\nenormous xy"),
      p = [] ∨ ∀ w ∈ jsSplit ' ' p, w ≠ [] ∧ ∀ c ∈ w, isWS c = false) ∧
    ∃ groups : List (List Str),
      wrapText (str "ab cd\n\nenormous xy") 5 lenQ = groups.map (joinSep ' ') ∧
      groups.flatten = textWords (str "ab cd\n\nenormous xy") ∧
      (∀ w ∈ textWords (str "ab cd\n\nenormous xy"), 5 < lenQ w → [w] ∈ groups) ∧
      (wrapText (str "ab cd\n\nenormous xy") 5 lenQ).count [] =
        (jsSplit '\n' (str "ab cd\n\nenormous xy")).count [] := by
  have hmon : ∀ s t : Str, lenQ s ≤ lenQ (s ++ t) ∧ lenQ t ≤ lenQ (s ++ t) := by
    intro s t
    simp only [lenQ, List.length_append, Nat.cast_add]
    constructor
    · exact le_add_of_nonneg_right (by positivity)
    · exact le_add_of_nonneg_left (by positivity)
  have hwf : ∀ p ∈ jsSplit '\n' (str "ab cd\n\nenormous xy"),
      p = [] ∨ ∀ w ∈ jsSplit ' ' p, w ≠ [] ∧ ∀ c ∈ w, isWS c = false := by decide
  exact ⟨hmon, hwf,
    c10_wrapText_preserves_words lenQ 5 (str "ab cd\n\nenormous xy") hmon hwf⟩
